import Mathlib

/-!
Verification of the ADAM intelligence and memory pipeline.

The development shallowly embeds the Python sources:
  src/intelligence/entity_recognition.py  (EntityRecognizer)
  src/intelligence/categorizer.py         (ContentCategorizer)
  src/intelligence/coach.py               (Coach)
  src/memory/memory_system.py             (MemorySystem)
  src/storage/database.py                 (DatabaseManager)
  src/core/adam.py                        (ADAM._update_entities_and_relationships)

Texts are lists of characters (Unicode code points, as in Python 3 strings).
All regular expressions in the sources are executed with `re.finditer(p, text,
re.IGNORECASE)`; the engine below implements exactly the constructs those
patterns use (character classes, literals, greedy bounded/unbounded repetition,
alternation, word boundaries, one capture group) with Python's leftmost,
greedy, backtracking semantics.  Character-class and case-folding tables are
implemented for the Basic Latin and Latin-1 ranges, which cover every code
point appearing in this development; code points above U+00FF are treated as
word characters (all that occur in the sources are letters).
-/

namespace ADAM

set_option maxRecDepth 1000000

/-- A text is the list of code points of a Python string. -/
abbrev Text := List Char

/-- Code points of a string literal. -/
def str (s : String) : Text := s.data

/-- Python `str.lower` / `re.IGNORECASE` case folding, restricted to the
Basic Latin and Latin-1 ranges (A-Z and À-Þ except ×). -/
def lowChar (c : Char) : Char :=
  let n := c.toNat
  if 65 ≤ n ∧ n ≤ 90 then Char.ofNat (n + 32)
  else if 192 ≤ n ∧ n ≤ 222 ∧ n ≠ 215 then Char.ofNat (n + 32)
  else c

/-- Python `str.lower` over a whole text. -/
def lowText (t : Text) : Text := t.map lowChar

/-- Python regex `\s` (whitespace), restricted to code points below U+0100. -/
def isSpaceChar (c : Char) : Bool :=
  let n := c.toNat
  n = 9 || n = 10 || n = 11 || n = 12 || n = 13 || (28 ≤ n && n ≤ 31) ||
  n = 32 || n = 133 || n = 160

/-- Python regex `\d` for the inputs of this development (ASCII digits). -/
def isDigitChar (c : Char) : Bool :=
  48 ≤ c.toNat && c.toNat ≤ 57

/-- ASCII letter: what `[A-Z]`, `[a-z]` and `[A-Za-z]` match under
`re.IGNORECASE`. -/
def isAsciiLetter (c : Char) : Bool :=
  (65 ≤ c.toNat && c.toNat ≤ 90) || (97 ≤ c.toNat && c.toNat ≤ 122)

/-- Python regex `\w` (used by `\b`): alphanumerics and underscore.  Latin-1
letters (ª µ º À-Ö Ø-ö ø-ÿ) are word characters; code points ≥ U+0100 are
treated as word characters (every such code point in this development is a
letter). -/
def isWordChar (c : Char) : Bool :=
  let n := c.toNat
  isDigitChar c || isAsciiLetter c || n = 95 || n = 170 || n = 181 || n = 186 ||
  (192 ≤ n && n ≤ 255 && n ≠ 215 && n ≠ 247) || 256 ≤ n

/-- Regular expressions: exactly the constructs used by the patterns in
`entity_recognition.py`. `rep r lo none` is greedy `r{lo,}`, `rep r lo (some hi)`
greedy `r{lo,hi}`; `grp` is capture group 1. -/
inductive RE : Type
  | eps : RE
  | cls (p : Char → Bool) : RE
  | seq (r1 r2 : RE) : RE
  | alt (r1 r2 : RE) : RE
  | rep (r : RE) (lo : Nat) (hi : Option Nat) : RE
  | wordB : RE
  | grp (r : RE) : RE

/-- Matcher state: absolute position, previous character (for `\b`),
remaining suffix of the text, and the span of capture group 1. -/
structure MSt where
  pos : Nat
  prev : Option Char
  rest : List Char
  g1 : Option (Nat × Nat)
deriving Repr

/-- True at a Python word boundary: exactly one side is a word character. -/
def atBoundary (prev : Option Char) (rest : List Char) : Bool :=
  let a := match prev with | some c => isWordChar c | none => false
  let b := match rest with | c :: _ => isWordChar c | [] => false
  a != b

/-- All ways a regex can match a prefix of the remaining input, in Python's
backtracking preference order (alternatives left first, repetition greedy).
The head of the list is the match Python's engine returns.  `fuel` bounds the
recursion depth (structurally, so the kernel can evaluate the definition);
every repetition body in the embedded patterns consumes at least one
character, so any fuel above text length plus pattern size is exact. -/
def reRun : Nat → RE → MSt → List MSt
  | 0, _, _ => []
  | fuel + 1, re, st =>
    match re with
    | .eps => [st]
    | .cls p =>
      match st.rest with
      | [] => []
      | c :: r => if p c then [⟨st.pos + 1, some c, r, st.g1⟩] else []
    | .seq r1 r2 => (reRun fuel r1 st).flatMap (reRun fuel r2)
    | .alt r1 r2 => reRun fuel r1 st ++ reRun fuel r2 st
    | .wordB => if atBoundary st.prev st.rest then [st] else []
    | .grp r =>
      (reRun fuel r st).map (fun st' => { st' with g1 := some (st.pos, st'.pos) })
    | .rep r lo hi =>
      match lo, hi with
      | 0, some 0 => [st]
      | 0, hi' =>
        ((reRun fuel r st).flatMap
          (reRun fuel (.rep r 0 (hi'.map Nat.pred)))) ++ [st]
      | l + 1, hi' =>
        (reRun fuel r st).flatMap
          (reRun fuel (.rep r l (hi'.map Nat.pred)))

/-- The character just before position `pos`, for word-boundary tests. -/
def prevCharAt (text : Text) (pos : Nat) : Option Char :=
  if pos = 0 then none else (text.drop (pos - 1)).head?

/-- Python `pattern.match(text, pos)`: the first (leftmost-greedy) match
starting exactly at `pos`. -/
def matchAt (re : RE) (text : Text) (pos : Nat) : Option MSt :=
  (reRun (text.length + 500) re ⟨pos, prevCharAt text pos, text.drop pos, none⟩).head?

/-- One `re.finditer` step list: scan left to right, emit non-overlapping
matches `(start, stop, group1)`, resuming at each match's end (or one past a
zero-width match). -/
def finditerAux (re : RE) (text : Text) : Nat → Nat → List (Nat × Nat × Option (Nat × Nat))
  | 0, _ => []
  | fuel + 1, pos =>
    if pos ≤ text.length then
      match matchAt re text pos with
      | some st =>
        (pos, st.pos, st.g1) ::
          finditerAux re text fuel (if pos < st.pos then st.pos else pos + 1)
      | none => finditerAux re text fuel (pos + 1)
    else []

/-- Python `re.finditer(re, text, re.IGNORECASE)` over the embedded pattern. -/
def finditer (re : RE) (text : Text) : List (Nat × Nat × Option (Nat × Nat)) :=
  finditerAux re text (text.length + 1) 0

/-- `text[a:b]` for `a ≤ b`. -/
def slice (text : Text) (a b : Nat) : Text := (text.drop a).take (b - a)

/-- Concatenation of regexes, for transcribing pattern strings. -/
def cat (l : List RE) : RE := l.foldr .seq .eps

/-- A literal character under `re.IGNORECASE`. -/
def chr (c : Char) : RE := .cls (fun x => lowChar x = lowChar c)

/-- A literal string under `re.IGNORECASE` (`re.escape` of a keyword). -/
def lit (s : String) : RE := cat ((str s).map chr)

/-- `[A-Z]` / `[a-z]` under `re.IGNORECASE`. -/
def AZ : RE := .cls isAsciiLetter

/-- `\d`. -/
def D : RE := .cls isDigitChar

/-- Greedy `r+`. -/
def plus (r : RE) : RE := .rep r 1 none

/-- Greedy `r?`. -/
def opt (r : RE) : RE := .rep r 0 (some 1)

/-- Greedy `r{n}`. -/
def repEx (r : RE) (n : Nat) : RE := .rep r n (some n)

/-!
## Entity Recognizer (`src/intelligence/entity_recognition.py`)
-/

/-- An entity dict as built by `EntityRecognizer`: keys `name`, `type`,
`start`, `end`, `confidence`, `metadata`.  Confidence is recorded in tenths
(8 = 0.8, 9 = 0.9; the source only ever assigns these two constants).
`metadata` is the value of the only key the source ever sets (`"context"`);
`none` models the empty dict `{}`.  The dicts never carry an `"id"` key. -/
structure Entity where
  name : Text
  type : String
  start : Nat
  stop : Nat
  confidence : Nat
  metadata : Option String
deriving DecidableEq, Repr

/-- `self.patterns`, in dict insertion order, each pattern transcribed from
its source string (all compiled with `re.IGNORECASE`):
person: `\b[A-Z][a-z]+ [A-Z][a-z]+\b`, `\b[A-Z][a-z]+\b`;
date: `\b\d{1,2}/\d{1,2}/\d{4}\b`, `\b\d{4}-\d{2}-\d{2}\b`,
  `\b\d{1,2} de [a-z]+ de \d{4}\b`, `\b[a-z]+ \d{1,2},? \d{4}\b`,
  `\bQ[1-4]\b`, `\b\d{4}\b`;
project: `\bproyecto [A-Z][a-z]+\b`, `\b[A-Z][A-Z]+\b`,
  `\b[A-Z][a-z]+[A-Z][a-z]+\b`;
company: `\b[A-Z][a-z]+ (Inc|Corp|LLC|Ltd|S\.A\.|S\.A\.S\.)\b`,
  `\b[A-Z][a-z]+ [A-Z][a-z]+ (Company|Corporation|Enterprise)\b`;
url: `https?://[^\s]+`, `www\.[^\s]+`;
email: `\b[A-Za-z0-9._%+-]+@[A-Za-z0-9.-]+\.[A-Z|a-z]{2,}\b`;
phone: `\b\+?[\d\s\-\(\)]{10,}\b`.
Under IGNORECASE, `[A-Z]`, `[a-z]` and `[A-Z][A-Z]` all denote an ASCII
letter of either case. -/
def patterns : List (String × List RE) :=
  [("person",
    [cat [.wordB, AZ, plus AZ, chr ' ', AZ, plus AZ, .wordB],
     cat [.wordB, AZ, plus AZ, .wordB]]),
   ("date",
    [cat [.wordB, .rep D 1 (some 2), chr '/', .rep D 1 (some 2), chr '/', repEx D 4, .wordB],
     cat [.wordB, repEx D 4, chr '-', repEx D 2, chr '-', repEx D 2, .wordB],
     cat [.wordB, .rep D 1 (some 2), lit " de ", plus AZ, lit " de ", repEx D 4, .wordB],
     cat [.wordB, plus AZ, chr ' ', .rep D 1 (some 2), opt (chr ','), chr ' ', repEx D 4, .wordB],
     cat [.wordB, chr 'Q', .cls (fun c => 49 ≤ c.toNat && c.toNat ≤ 52), .wordB],
     cat [.wordB, repEx D 4, .wordB]]),
   ("project",
    [cat [.wordB, lit "proyecto ", AZ, plus AZ, .wordB],
     cat [.wordB, AZ, plus AZ, .wordB],
     cat [.wordB, AZ, plus AZ, AZ, plus AZ, .wordB]]),
   ("company",
    [cat [.wordB, AZ, plus AZ, chr ' ',
          .alt (lit "Inc") (.alt (lit "Corp") (.alt (lit "LLC")
            (.alt (lit "Ltd") (.alt (lit "S.A.") (lit "S.A.S."))))), .wordB],
     cat [.wordB, AZ, plus AZ, chr ' ', AZ, plus AZ, chr ' ',
          .alt (lit "Company") (.alt (lit "Corporation") (lit "Enterprise")), .wordB]]),
   ("url",
    [cat [lit "http", opt (chr 's'), lit "://", plus (.cls (fun c => !isSpaceChar c))],
     cat [lit "www.", plus (.cls (fun c => !isSpaceChar c))]]),
   ("email",
    [cat [.wordB,
          plus (.cls (fun c => isAsciiLetter c || isDigitChar c ||
            c = '.' || c = '_' || c = '%' || c = '+' || c = '-')),
          chr '@',
          plus (.cls (fun c => isAsciiLetter c || isDigitChar c || c = '.' || c = '-')),
          chr '.',
          .rep (.cls (fun c => isAsciiLetter c || c = '|')) 2 none, .wordB]]),
   ("phone",
    [cat [.wordB, opt (chr '+'),
          .rep (.cls (fun c => isDigitChar c || isSpaceChar c ||
            c = '-' || c = '(' || c = ')')) 10 none, .wordB]])]

/-- `self.keywords`, in dict insertion order. -/
def keywords : List (String × List String) :=
  [("person", ["marco", "maría", "juan", "ana", "pedro", "lisa", "carlos"]),
   ("project", ["finops", "devops", "frontend", "backend", "api", "database"]),
   ("company", ["google", "microsoft", "apple", "amazon", "meta"]),
   ("event", ["reunión", "meeting", "conferencia", "presentación", "demo"]),
   ("task", ["tarea", "task", "trabajo", "proyecto", "desarrollo"])]

/-- Python `needle in hay` (substring containment). -/
def containsSub (hay needle : Text) : Bool :=
  needle.isPrefixOf hay ||
    match hay with
    | [] => false
    | _ :: t => containsSub t needle

/-- The regex-pattern pass of `extract_entities` (lines 70-83): every match of
every pattern becomes an entity named by the matched slice, confidence 0.8,
empty metadata. -/
def regexCandidates (text : Text) : List Entity :=
  patterns.flatMap (fun p =>
    p.2.flatMap (fun re =>
      (finditer re text).map (fun m =>
        ⟨slice text m.1 m.2.1, p.1, m.1, m.2.1, 8, none⟩)))

/-- The keyword pass of `extract_entities` (lines 85-102): for each keyword
present as a substring of the lower-cased text, every match of
`\b<keyword>\b` (IGNORECASE) becomes an entity named by the matched slice,
confidence 0.9, empty metadata. -/
def keywordCandidates (text : Text) : List Entity :=
  let text_lower := lowText text
  keywords.flatMap (fun p =>
    p.2.flatMap (fun kw =>
      if containsSub text_lower (str kw) then
        (finditer (cat [.wordB, lit kw, .wordB]) text).map (fun m =>
          ⟨slice text m.1 m.2.1, p.1, m.1, m.2.1, 9, none⟩)
      else []))

/-- `_extract_special_dates` birthday patterns:
`cumpleaños de ([A-Z][a-z]+)`, `birthday of ([A-Z][a-z]+)`,
`([A-Z][a-z]+) cumple años`. -/
def birthday_patterns : List RE :=
  [cat [lit "cumpleaños de ", .grp (cat [AZ, plus AZ])],
   cat [lit "birthday of ", .grp (cat [AZ, plus AZ])],
   cat [.grp (cat [AZ, plus AZ]), lit " cumple años"]]

/-- `_extract_special_dates` deadline patterns:
`deadline ([a-z]+ \d{1,2})`, `fecha límite ([a-z]+ \d{1,2})`,
`entrega ([a-z]+ \d{1,2})`. -/
def deadline_patterns : List RE :=
  [cat [lit "deadline ", .grp (cat [plus AZ, chr ' ', .rep D 1 (some 2)])],
   cat [lit "fecha límite ", .grp (cat [plus AZ, chr ' ', .rep D 1 (some 2)])],
   cat [lit "entrega ", .grp (cat [plus AZ, chr ' ', .rep D 1 (some 2)])]]

/-- `_extract_special_dates`: the entity's name is `match.group(1)` while
`start`/`end` span the whole match; birthdays are persons with metadata
`{"context": "birthday"}` (confidence 0.9), deadlines are dates with metadata
`{"context": "deadline"}` (confidence 0.8).  Every pattern contains a group,
so `group(1)` is always defined; `filterMap` mirrors that. -/
def extract_special_dates (text : Text) : List Entity :=
  birthday_patterns.flatMap (fun re =>
    (finditer re text).filterMap (fun m =>
      m.2.2.map (fun g =>
        ⟨slice text g.1 g.2, "person", m.1, m.2.1, 9, some "birthday"⟩)))
  ++
  deadline_patterns.flatMap (fun re =>
    (finditer re text).filterMap (fun m =>
      m.2.2.map (fun g =>
        ⟨slice text g.1 g.2, "date", m.1, m.2.1, 8, some "deadline"⟩)))

/-- `_extract_projects` patterns: `proyecto ([A-Z][a-z]+)`,
`project ([A-Z][a-z]+)`, `([A-Z][a-z]+) project`,
`trabajando en ([A-Z][a-z]+)`, `desarrollando ([A-Z][a-z]+)`. -/
def project_patterns : List RE :=
  [cat [lit "proyecto ", .grp (cat [AZ, plus AZ])],
   cat [lit "project ", .grp (cat [AZ, plus AZ])],
   cat [.grp (cat [AZ, plus AZ]), lit " project"],
   cat [lit "trabajando en ", .grp (cat [AZ, plus AZ])],
   cat [lit "desarrollando ", .grp (cat [AZ, plus AZ])]]

/-- `_extract_projects`: name is `match.group(1)`, span is the whole match,
type `project`, confidence 0.8, metadata `{"context": "development"}`. -/
def extract_projects (text : Text) : List Entity :=
  project_patterns.flatMap (fun re =>
    (finditer re text).filterMap (fun m =>
      m.2.2.map (fun g =>
        ⟨slice text g.1 g.2, "project", m.1, m.2.1, 8, some "development"⟩)))

/-- The dedup key of `_deduplicate_entities`:
`(entity["name"].lower(), entity["type"], entity["start"])`. -/
def entityKey (e : Entity) : Text × String × Nat := (lowText e.name, e.type, e.start)

/-- The `seen`-set loop of `_deduplicate_entities`: keep the first entity with
each key, drop later duplicates. -/
def dedupKeep (seen : List (Text × String × Nat)) : List Entity → List Entity
  | [] => []
  | e :: rest =>
    if entityKey e ∈ seen then dedupKeep seen rest
    else e :: dedupKeep (entityKey e :: seen) rest

/-- `_deduplicate_entities`: deduplicate on `(name.lower(), type, start)`,
then stable-sort ascending by `start` (Python `list.sort` is stable, as is
insertion sort). -/
def deduplicate_entities (entities : List Entity) : List Entity :=
  List.insertionSort (fun a b => a.start ≤ b.start) (dedupKeep [] entities)

/-- All candidates of `extract_entities`, in source order: regex pass,
keyword pass, `_extract_special_dates`, `_extract_projects`. -/
def allCandidates (text : Text) : List Entity :=
  regexCandidates text ++ keywordCandidates text ++
    extract_special_dates text ++ extract_projects text

/-- `EntityRecognizer.extract_entities`. -/
def extract_entities (text : Text) : List Entity :=
  deduplicate_entities (allCandidates text)

/-!
## Categorizer (`src/intelligence/categorizer.py`)

Scores are floats in the source but every contribution is a multiple of 0.1
(`weight = 1.0`, bonuses 0.5/0.3/0.2); scores are modelled in tenths, which
gives the same comparisons (all contributions are nonnegative).
-/

/-- `self.categories`, in dict insertion order: `(name, keywords, weight)`
with the weight in tenths (`1.0` = 10). -/
def categories : List (String × List String × Nat) :=
  [("work",
    (["reunión", "meeting", "proyecto", "project", "trabajo", "work",
      "deadline", "fecha límite", "presentación", "demo", "código",
      "desarrollo", "development", "api", "database", "frontend",
      "backend", "devops", "finops", "presupuesto", "budget"], 10)),
   ("personal",
    (["familia", "family", "amigos", "friends", "cumpleaños", "birthday",
      "vacaciones", "vacation", "casa", "home", "hobby", "pasatiempo"], 10)),
   ("health",
    (["ejercicio", "exercise", "gimnasio", "gym", "médico", "doctor",
      "salud", "health", "dieta", "diet", "bienestar", "wellness"], 10)),
   ("learning",
    (["estudiar", "study", "curso", "course", "libro", "book",
      "aprender", "learn", "investigación", "research", "tutorial"], 10)),
   ("finance",
    (["dinero", "money", "inversión", "investment", "ahorro", "saving",
      "gasto", "expense", "presupuesto", "budget", "finanzas", "finance"], 10)),
   ("links",
    (["http", "www", "link", "url", "sitio", "website", "artículo",
      "article", "recurso", "resource", "documentación", "docs"], 10)),
   ("tasks",
    (["tarea", "task", "hacer", "do", "completar", "complete",
      "pendiente", "pending", "lista", "list", "checklist"], 10)),
   ("events",
    (["evento", "event", "conferencia", "conference", "seminario",
      "seminar", "workshop", "taller", "cita", "appointment"], 10))]

/-- `ContentCategorizer._calculate_entity_bonus`, in tenths: the `if/elif`
chain on the entity type (+0.5 work for project/company, +0.3 personal for
person, +0.2 events for date) plus the `if/elif` chain on the lower-cased
name (+0.3 work for finops/devops/api, +0.2 personal for maría/marco/juan). -/
def calculate_entity_bonus (category : String) (entities : List Entity) : Nat :=
  entities.foldl (fun bonus e =>
    let typeBonus :=
      if category = "work" ∧ (e.type = "project" ∨ e.type = "company") then 5
      else if category = "personal" ∧ e.type = "person" then 3
      else if category = "events" ∧ e.type = "date" then 2
      else 0
    let nameBonus :=
      if category = "work" ∧
          (lowText e.name = str "finops" ∨ lowText e.name = str "devops" ∨
           lowText e.name = str "api") then 3
      else if category = "personal" ∧
          (lowText e.name = str "maría" ∨ lowText e.name = str "marco" ∨
           lowText e.name = str "juan") then 2
      else 0
    bonus + typeBonus + nameBonus) 0

/-- One category's score: the keyword loop of `categorize_content`
(`score += weight` for every keyword present as a substring of the
lower-cased text) plus the entity bonus. -/
def categoryScore (text_lower : Text) (entities : List Entity)
    (category : String) (kws : List String) (weight : Nat) : Nat :=
  kws.foldl (fun score kw =>
    if containsSub text_lower (str kw) then score + weight else score) 0
  + calculate_entity_bonus category entities

/-- The `scores` dict of `categorize_content`, in category order. -/
def categoryScores (text : Text) (entities : List Entity) : List (String × Nat) :=
  categories.map (fun c => (c.1, categoryScore (lowText text) entities c.1 c.2.1 c.2.2))

/-- Python `max(scores, key=scores.get)`: the first key attaining the maximal
value, in dict iteration order. -/
def argmaxFirst (scores : List (String × Nat)) : String :=
  match scores with
  | [] => "general"
  | p :: rest => (rest.foldl (fun best q => if q.2 > best.2 then q else best) p).1

/-- `ContentCategorizer.categorize_content`: `"general"` when the maximal
score is 0, otherwise the first category with maximal score. -/
def categorize_content (text : Text) (entities : List Entity) : String :=
  let scores := categoryScores text entities
  if (scores.map (fun p => p.2)).foldl max 0 = 0 then "general"
  else argmaxFirst scores

/-!
## Conversations (rows of the `conversations` table, and the dicts
`get_conversation_history` returns)
-/

/-- A row of the `conversations` table.  `timestamp` is a `Nat`: the source
stores `datetime.now().isoformat()` strings, whose lexicographic order (used
by `ORDER BY timestamp DESC`) coincides with chronological order for the
fixed-width ISO format.  `entities_json` is `NULL` (`none`) or the JSON dump
of a nonempty entity list; `json.loads ∘ json.dumps` is the identity on the
entity dicts, so the column holds the list itself. -/
structure ConvRow where
  id : String
  session_id : String
  timestamp : Nat
  user_message : Text
  adam_response : Text
  entities_json : Option (List Entity)
  chroma_id : Option String
deriving DecidableEq, Repr

/-- A conversation dict as returned by `get_conversation_history`: the row
plus the parsed `entities` key (`[]` when `entities_json` is `NULL`). -/
structure Conversation where
  id : String
  session_id : String
  timestamp : Nat
  user_message : Text
  adam_response : Text
  entities : List Entity
deriving DecidableEq, Repr

/-!
## Coach (`src/intelligence/coach.py`)
-/

/-- An insight dict: the always-present keys `type`, `priority`, `message`,
`suggestion`, and the optional extras `entity`, `pattern`, `frequency`
(absent = `none`). -/
structure Insight where
  type : String
  priority : String
  message : Text
  suggestion : Text
  entity : Option Text
  pattern : Option String
  frequency : Option Nat
deriving DecidableEq, Repr

/-- `Coach._analyze_message_for_insights`: three phrase detectors over the
lower-cased message, each firing at most once, in source order
(meeting → deadline → birthday). -/
def analyze_message_for_insights (user_message : Text) : List Insight :=
  let ml := lowText user_message
  (if [str "reunión", str "meeting", str "call"].any (containsSub ml) then
    [⟨"follow_up", "medium",
      str "¿Te gustaría que programe un recordatorio para hacer seguimiento después de esta reunión?",
      str "Agregar recordatorio de seguimiento", none, none, none⟩]
   else []) ++
  (if [str "deadline", str "fecha límite", str "entrega"].any (containsSub ml) then
    [⟨"reminder", "high",
      str "Veo que mencionas un deadline. ¿Quieres que te ayude a organizar las tareas pendientes?",
      str "Crear lista de tareas para el deadline", none, none, none⟩]
   else []) ++
  (if [str "cumpleaños", str "birthday", str "aniversario"].any (containsSub ml) then
    [⟨"reminder", "medium",
      str "Información personal importante detectada. ¿Quieres que programe recordatorios anuales?",
      str "Configurar recordatorio anual", none, none, none⟩]
   else [])

/-- `Coach._get_person_context`: context items naming the person
(case-insensitively). -/
def get_person_context (person_name : Text) (relevant_context : List Conversation) :
    List Conversation :=
  relevant_context.filter (fun c =>
    c.entities.any (fun e => lowText e.name = lowText person_name))

/-- `Coach._generate_reminders`: one pass over the entities; persons with
nonempty prior context and all projects yield a `follow_up`. -/
def generate_reminders (entities : List Entity) (relevant_context : List Conversation) :
    List Insight :=
  entities.flatMap (fun e =>
    if e.type = "person" then
      if (get_person_context e.name relevant_context).isEmpty then []
      else
        [⟨"follow_up", "medium",
          str "¿Cómo estuvo tu última interacción con " ++ e.name ++ str "?",
          str "Revisar conversaciones previas con " ++ e.name,
          some e.name, none, none⟩]
    else if e.type = "project" then
      [⟨"follow_up", "medium",
        str "¿Hay actualizaciones sobre el proyecto " ++ e.name ++ str "?",
        str "Actualizar estado del proyecto " ++ e.name,
        some e.name, none, none⟩]
    else [])

/-- The fixed topic taxonomy of `_analyze_topic_frequency`. -/
def topics : List (String × List String) :=
  [("trabajo", ["trabajo", "work", "proyecto", "project"]),
   ("personal", ["familia", "family", "amigos", "friends"]),
   ("salud", ["ejercicio", "exercise", "salud", "health"]),
   ("finanzas", ["dinero", "money", "presupuesto", "budget"])]

/-- `topic_frequency[topic] = topic_frequency.get(topic, 0) + 1` on an
insertion-ordered dict, modelled as an association list. -/
def bumpTopic (freq : List (String × Nat)) (topic : String) : List (String × Nat) :=
  if freq.any (fun p => p.1 = topic) then
    freq.map (fun p => if p.1 = topic then (p.1, p.2 + 1) else p)
  else freq ++ [(topic, 1)]

/-- `Coach._analyze_topic_frequency`: per context item, bump every topic one
of whose keywords occurs in the lower-cased message. -/
def analyze_topic_frequency (relevant_context : List Conversation) :
    List (String × Nat) :=
  relevant_context.foldl (fun freq c =>
    topics.foldl (fun freq t =>
      if t.2.any (fun kw => containsSub (lowText c.user_message) (str kw)) then
        bumpTopic freq t.1
      else freq) freq) []

/-- `Coach._analyze_time_patterns` is a stub: it always returns `None`. -/
def analyze_time_patterns (_relevant_context : List Conversation) : Option String :=
  none

/-- `Coach._detect_patterns`: a `pattern` insight per topic with frequency
above 3, plus a time-of-day insight when `_analyze_time_patterns` returns
something (it never does). -/
def detect_patterns (_user_message : Text) (relevant_context : List Conversation) :
    List Insight :=
  ((analyze_topic_frequency relevant_context).filter (fun p => p.2 > 3)).map
    (fun p =>
      ⟨"pattern", "low",
       str "Veo que " ++ str p.1 ++ str " es un tema recurrente en nuestras conversaciones.",
       str "¿Te gustaría que profundice en " ++ str p.1 ++ str "?",
       none, some p.1, some p.2⟩) ++
  (match analyze_time_patterns relevant_context with
   | some tp =>
     [⟨"pattern", "low",
       str "Detecto que eres más activo en " ++ str tp,
       str "¿Quieres que programe recordatorios para esos horarios?",
       none, some "time_activity", none⟩]
   | none => [])

/-- `Coach._generate_proactive_suggestions`: organization when more than 3
entities, search when any context, date-reminder when any date entity. -/
def generate_proactive_suggestions (_user_message : Text) (entities : List Entity)
    (relevant_context : List Conversation) : List Insight :=
  (if entities.length > 3 then
    [⟨"organization", "medium",
      str "Veo que mencionas varios elementos. ¿Te gustaría que organice esta información?",
      str "Crear categorías automáticas", none, none, none⟩]
   else []) ++
  (if relevant_context.isEmpty then []
   else
    [⟨"search", "low",
      str "Tengo información relacionada. ¿Quieres que busque más contexto?",
      str "Buscar información relacionada", none, none, none⟩]) ++
  (if (entities.filter (fun e => e.type = "date")).isEmpty then []
   else
    [⟨"reminder", "medium",
      str "Detecté fechas importantes. ¿Quieres que configure recordatorios?",
      str "Configurar recordatorios de fechas", none, none, none⟩])

/-- The concatenation `generate_insights` builds before the cap, in source
order: message-triggered, entity-triggered, patterns, proactive. -/
def allInsights (user_message : Text) (entities : List Entity)
    (relevant_context : List Conversation) : List Insight :=
  analyze_message_for_insights user_message ++
  generate_reminders entities relevant_context ++
  detect_patterns user_message relevant_context ++
  generate_proactive_suggestions user_message entities relevant_context

/-- `Coach.generate_insights`: the concatenation truncated to 5
(`return insights[:5]`). -/
def generate_insights (user_message : Text) (entities : List Entity)
    (relevant_context : List Conversation) : List Insight :=
  (allInsights user_message entities relevant_context).take 5

/-!
## Memory Store (`src/storage/database.py`)

The SQLite store is embedded as lists of rows in insertion (rowid) order.
`uuid.uuid4()` and `datetime.now()` are modelled as caller-supplied fresh
identifiers and `Nat` timestamps.  The `files` table is not touched by any
claim and is omitted.
-/

/-- A row of the `entities` table.  `metadata_json` is `NULL` when the
metadata dict is empty (`json.dumps(metadata) if metadata else None`);
otherwise it holds the dict's single `"context"` value, as for
`Entity.metadata`. -/
structure EntityRow where
  id : String
  name : Text
  type : String
  metadata_json : Option String
  first_seen : Nat
  mention_count : Nat
deriving DecidableEq, Repr

/-- A row of the `relationships` table.  `ensure_database` declares this
table with NO primary key and NO unique constraint — only two (unenforced by
default) foreign keys. -/
structure RelRow where
  entity1_id : String
  entity2_id : String
  relationship_type : String
  context : Option Text
deriving DecidableEq, Repr

/-- The persistent store. -/
structure DB where
  conversations : List ConvRow
  entities : List EntityRow
  relationships : List RelRow
deriving DecidableEq, Repr

/-- `DatabaseManager.save_conversation`: one INSERT.  `entities_json` is
`NULL` when the passed entity list is falsy (absent or empty), else its JSON
dump. -/
def save_conversation (db : DB) (conversation_id session_id : String)
    (timestamp : Nat) (user_message adam_response : Text)
    (entities : List Entity) (chroma_id : Option String) : DB :=
  { db with conversations := db.conversations ++
      [⟨conversation_id, session_id, timestamp, user_message, adam_response,
        if entities.isEmpty then none else some entities, chroma_id⟩] }

/-- `ORDER BY timestamp DESC`.  Ties are ordered arbitrarily by SQLite;
insertion sort fixes one such order (claims below never depend on tie
order). -/
def sortByTimestampDesc (rows : List ConvRow) : List ConvRow :=
  List.insertionSort (fun a b => b.timestamp ≤ a.timestamp) rows

/-- Parsing a fetched row into the returned dict: `entities` is the JSON
load of `entities_json`, or `[]` when `NULL`. -/
def rowToConv (r : ConvRow) : Conversation :=
  ⟨r.id, r.session_id, r.timestamp, r.user_message, r.adam_response,
   r.entities_json.getD []⟩

/-- `DatabaseManager.get_conversation_history`: optional session filter
(Python truthiness: `None` and `""` both skip the filter), newest first,
`LIMIT limit`. -/
def get_conversation_history (db : DB) (session_id : Option String)
    (limit : Nat) : List Conversation :=
  let rows :=
    match session_id with
    | some sid =>
      if sid = "" then db.conversations
      else db.conversations.filter (fun r => r.session_id = sid)
    | none => db.conversations
  ((sortByTimestampDesc rows).take limit).map rowToConv

/-- `DatabaseManager.save_entity`: SELECT the first row with this
`(name, type)`; if found, `UPDATE ... SET mention_count = mention_count + 1
WHERE id = <its id>` and return its id, else INSERT a fresh row with count 1
and return the fresh id.  The metadata of an existing row is never
touched. -/
def save_entity (db : DB) (name : Text) (entity_type : String)
    (metadata : Option String) (entity_id : String) (first_seen : Nat) :
    String × DB :=
  match db.entities.find? (fun r =>
      decide (r.name = name ∧ r.type = entity_type)) with
  | some existing =>
    (existing.id,
     { db with entities := db.entities.map (fun r =>
         if r.id = existing.id then { r with mention_count := r.mention_count + 1 }
         else r) })
  | none =>
    (entity_id,
     { db with entities := db.entities ++
         [⟨entity_id, name, entity_type, metadata, first_seen, 1⟩] })

/-- `DatabaseManager.save_relationship`: `INSERT OR REPLACE INTO
relationships ...`.  The table has no primary key and no unique constraint
(see `RelRow`), so the `OR REPLACE` conflict clause can never fire and the
statement is a plain INSERT: the row is appended. -/
def save_relationship (db : DB) (entity1_id entity2_id : String)
    (relationship_type : String) (context : Option Text) : DB :=
  { db with relationships := db.relationships ++
      [⟨entity1_id, entity2_id, relationship_type, context⟩] }

/-- `DatabaseManager.get_relationships`: relationship rows touching
`entity_id`, inner-JOINed on both endpoint ids against the `entities` table
(each JOIN resolved by the first row with the id; ids are unique in every
state this development builds).  A row whose endpoint id matches no entity
row is dropped by the JOIN. -/
def get_relationships (db : DB) (entity_id : String) :
    List (RelRow × Text × Text) :=
  db.relationships.filterMap (fun r =>
    if r.entity1_id = entity_id ∨ r.entity2_id = entity_id then
      match db.entities.find? (fun e => e.id = r.entity1_id),
            db.entities.find? (fun e => e.id = r.entity2_id) with
      | some e1, some e2 => some (r, e1.name, e2.name)
      | _, _ => none
    else none)

/-!
## Context Retriever (`src/memory/memory_system.py`)
-/

/-- `MemorySystem.max_context`. -/
def max_context : Nat := 10

/-- Python `str.split()`: split on whitespace runs, dropping empty pieces. -/
def splitWSAux : Text → Text → List Text
  | [], acc => if acc.isEmpty then [] else [acc.reverse]
  | c :: rest, acc =>
    if isSpaceChar c then
      if acc.isEmpty then splitWSAux rest []
      else acc.reverse :: splitWSAux rest []
    else splitWSAux rest (c :: acc)

/-- Python `str.split()`. -/
def splitWS (t : Text) : List Text := splitWSAux t []

/-- `MemorySystem._search_by_keywords`: over the 20 most recent
conversations, keep those whose message contains (case-insensitively) some
word of the query longer than 3 characters. -/
def search_by_keywords (db : DB) (user_message : Text) : List Conversation :=
  let conversations := get_conversation_history db none 20
  let kws := (splitWS user_message).filterMap (fun w =>
    if w.length > 3 then some (lowText w) else none)
  conversations.filter (fun conv =>
    kws.any (fun kw => containsSub (lowText conv.user_message) kw))

/-- The entity pass of `get_relevant_context`: for each entity with a
nonempty name, every one of the 50 most recent conversations whose stored
entity snapshot names it (case-insensitively); one conversation can be
collected once per matching query entity. -/
def entityContext (db : DB) (entities : List Entity) : List Conversation :=
  entities.flatMap (fun e =>
    if e.name.isEmpty then []
    else
      (get_conversation_history db none 50).filter (fun conv =>
        conv.entities.any (fun ce => lowText ce.name = lowText e.name)))

/-- `MemorySystem.get_relevant_context`: entity pass; keyword fallback only
when it found nothing; truncate to `max_context`.  (`session_id` is accepted
and unused, as in the source.) -/
def get_relevant_context (db : DB) (user_message : Text)
    (entities : List Entity) (_session_id : Option String) : List Conversation :=
  let relevant := entityContext db entities
  (if relevant.isEmpty then search_by_keywords db user_message else relevant).take
    max_context

/-!
## Orchestrator (`src/core/adam.py`, `_update_entities_and_relationships`)
-/

/-- `other_entity.get("id", "")` in `_update_entities_and_relationships`:
the entity dicts built by `EntityRecognizer.extract_entities` carry exactly
the keys `name`, `type`, `start`, `end`, `confidence`, `metadata` — never
`"id"` — so the lookup always returns the default `""`. -/
def entityDictId (_e : Entity) : String := ""

/-- The inner loop of `_update_entities_and_relationships` for one saved
entity: for every other (value-unequal) extracted entity, save a
`mentioned_together` relationship from the saved id to
`other_entity.get("id", "")` with the first 200 characters of the message as
context. -/
def saveRelationsFor (db : DB) (entities : List Entity) (e : Entity)
    (eid : String) (user_message : Text) : DB :=
  entities.foldl (fun db2 other =>
    if other ≠ e then
      save_relationship db2 eid (entityDictId other) "mentioned_together"
        (some (user_message.take 200))
    else db2) db

/-- `ADAM._update_entities_and_relationships`: upsert each extracted entity
(`name`, `type` defaulting to `"unknown"` is never needed — the recognizer
always sets a type — and its metadata), then link it to every co-occurring
entity.  Fresh uuid4/now values are supplied per entity as `fresh`. -/
def update_entities_and_relationships (db : DB) (entities : List Entity)
    (user_message : Text) (fresh : List (String × Nat)) : DB :=
  ((entities.zip fresh).foldl (fun db' p =>
    let (eid, db1) :=
      save_entity db' p.1.name p.1.type p.1.metadata p.2.1 p.2.2
    saveRelationsFor db1 entities p.1 eid user_message) db)

/-!
## Claims
-/

/-- **C1** (refuted, code bug).  Re-saving the relationship triple
`("e1", "e2", "mentioned_together")` with a new context does NOT replace the
prior row: because the `relationships` table has no primary key and no
unique constraint, `INSERT OR REPLACE` is a plain insert, so the store ends
with two rows for the triple and the first still carries the old context —
not one row carrying the new context as the claim states. -/
theorem C1_save_relationship_accumulates :
    (save_relationship
        (save_relationship ⟨[], [], []⟩ "e1" "e2" "mentioned_together"
          (some (str "c1")))
        "e1" "e2" "mentioned_together" (some (str "c2"))).relationships
      = [⟨"e1", "e2", "mentioned_together", some (str "c1")⟩,
         ⟨"e1", "e2", "mentioned_together", some (str "c2")⟩] ∧
    ((save_relationship
        (save_relationship ⟨[], [], []⟩ "e1" "e2" "mentioned_together"
          (some (str "c1")))
        "e1" "e2" "mentioned_together" (some (str "c2"))).relationships.filter
      (fun r => decide (r.entity1_id = "e1" ∧ r.entity2_id = "e2" ∧
        r.relationship_type = "mentioned_together"))).length = 2 := by
  constructor <;> rfl

/-- **C2** (refuted, code bug).  Processing a message with two extracted
entities stores relationship rows whose `entity2_id` is `""` (the extracted
entity dicts carry no `"id"` key, so `other_entity.get("id", "")` always
yields the default), and `get_relationships` on either persisted entity id
returns nothing: the inner JOIN on `entity2_id = ""` matches no entity
row. -/
theorem C2_mentioned_together_unretrievable :
    (update_entities_and_relationships ⟨[], [], []⟩
        [⟨str "María", "person", 12, 17, 9, none⟩,
         ⟨str "FinOps", "project", 24, 30, 9, none⟩]
        (str "Reunión con María sobre FinOps")
        [("id-1", 1), ("id-2", 2)]).entities.map EntityRow.id
      = ["id-1", "id-2"] ∧
    (update_entities_and_relationships ⟨[], [], []⟩
        [⟨str "María", "person", 12, 17, 9, none⟩,
         ⟨str "FinOps", "project", 24, 30, 9, none⟩]
        (str "Reunión con María sobre FinOps")
        [("id-1", 1), ("id-2", 2)]).relationships.map RelRow.entity2_id
      = ["", ""] ∧
    get_relationships
      (update_entities_and_relationships ⟨[], [], []⟩
        [⟨str "María", "person", 12, 17, 9, none⟩,
         ⟨str "FinOps", "project", 24, 30, 9, none⟩]
        (str "Reunión con María sobre FinOps")
        [("id-1", 1), ("id-2", 2)]) "id-1" = [] ∧
    get_relationships
      (update_entities_and_relationships ⟨[], [], []⟩
        [⟨str "María", "person", 12, 17, 9, none⟩,
         ⟨str "FinOps", "project", 24, 30, 9, none⟩]
        (str "Reunión con María sobre FinOps")
        [("id-1", 1), ("id-2", 2)]) "id-2" = [] := by
  refine ⟨?_, ?_, ?_, ?_⟩ <;> decide

/-- **C5** (confirmed).  For every message, entity list and retrieved
context, `generate_insights` returns at most 5 insights, and they are
exactly the first 5 elements of the concatenation of message-triggered
insights, entity-triggered reminders, pattern insights and proactive
suggestions, in that fixed order. -/
theorem C5_insight_cap_and_order (user_message : Text) (entities : List Entity)
    (relevant_context : List Conversation) :
    (generate_insights user_message entities relevant_context).length ≤ 5 ∧
    generate_insights user_message entities relevant_context =
      (analyze_message_for_insights user_message ++
       generate_reminders entities relevant_context ++
       detect_patterns user_message relevant_context ++
       generate_proactive_suggestions user_message entities relevant_context).take 5 :=
  ⟨List.length_take_le 5 _, rfl⟩

/-! ### C8: categorizer fallback -/

lemma keyword_foldl_const {tl : Text} {w : Nat} :
    ∀ (kws : List String) (acc : Nat),
      (∀ kw ∈ kws, containsSub tl (str kw) = false) →
      kws.foldl (fun score kw =>
        if containsSub tl (str kw) then score + w else score) acc = acc := by
  intro kws
  induction kws with
  | nil => intro acc _; rfl
  | cons kw rest ih =>
    intro acc h
    have h1 : containsSub tl (str kw) = false := h kw (by simp)
    simp only [List.foldl_cons, h1, Bool.false_eq_true, if_false]
    exact ih acc (fun k hk => h k (by simp [hk]))

lemma foldl_max_zero : ∀ (l : List Nat), (∀ x ∈ l, x = 0) → l.foldl max 0 = 0 := by
  intro l
  induction l with
  | nil => intro _; rfl
  | cons x rest ih =>
    intro h
    have hx : x = 0 := h x (by simp)
    simp only [List.foldl_cons, hx, Nat.max_self]
    exact ih (fun y hy => h y (by simp [hy]))

/-- **C8** (confirmed).  For every text whose lower-cased form contains none
of the registered category keywords as a substring, `categorize_content`
with an empty entity list returns the fallback category `"general"`. -/
theorem C8_categorizer_fallback (text : Text)
    (h : ∀ c ∈ categories, ∀ kw ∈ c.2.1, containsSub (lowText text) (str kw) = false) :
    categorize_content text [] = "general" := by
  have hall : ∀ p ∈ categoryScores text [], p.2 = 0 := by
    intro p hp
    obtain ⟨c, hc, rfl⟩ := List.mem_map.1 hp
    show categoryScore (lowText text) [] c.1 c.2.1 c.2.2 = 0
    unfold categoryScore
    rw [keyword_foldl_const c.2.1 0 (h c hc)]
    rfl
  have hz : ((categoryScores text []).map (fun p => p.2)).foldl max 0 = 0 := by
    apply foldl_max_zero
    intro x hx
    obtain ⟨p, hp, rfl⟩ := List.mem_map.1 hx
    exact hall p hp
  unfold categorize_content
  simp [hz]

/-- Witness for C8: `"zzz"` contains no registered keyword. -/
theorem C8_witness : categorize_content (str "zzz") [] = "general" :=
  C8_categorizer_fallback (str "zzz") (by decide)

/-! ### C3: entity upsert -/

/-- N successive `save_entity` calls for one `(name, type)`, each with its
own metadata, fresh uuid and timestamp. -/
def save_entity_runs (db : DB) (name : Text) (entity_type : String)
    (calls : List (Option String × String × Nat)) : DB :=
  calls.foldl (fun d c => (save_entity d name entity_type c.1 c.2.1 c.2.2).2) db

/-- The invariant of the `entities` table claimed by the spec: `(name, type)`
identifies at most one row, and every `mention_count` is at least 1. -/
def entitiesInvariant (db : DB) : Prop :=
  db.entities.Pairwise (fun a b => ¬(a.name = b.name ∧ a.type = b.type)) ∧
  ∀ r ∈ db.entities, 1 ≤ r.mention_count

lemma save_entity_found (cs : List ConvRow) (rs : List RelRow)
    (base : List EntityRow) (row : EntityRow) (name : Text) (ty : String)
    (hrn : row.name = name) (hrt : row.type = ty)
    (hbase : ∀ r ∈ base, ¬(r.name = name ∧ r.type = ty))
    (hid : ∀ r ∈ base, r.id ≠ row.id)
    (m : Option String) (i : String) (s : Nat) :
    save_entity ⟨cs, base ++ [row], rs⟩ name ty m i s =
      (row.id, ⟨cs, base ++ [{row with mention_count := row.mention_count + 1}], rs⟩) := by
  have hnone : base.find? (fun r => decide (r.name = name ∧ r.type = ty)) = none :=
    List.find?_eq_none.2 (fun x hx => by simpa using hbase x hx)
  have hfind : (base ++ [row]).find?
      (fun r => decide (r.name = name ∧ r.type = ty)) = some row := by
    rw [List.find?_append, hnone]
    simp [List.find?, hrn, hrt]
  unfold save_entity
  dsimp only
  rw [hfind]
  dsimp only
  simp only [List.map_append]
  have hb : base.map (fun r =>
      if r.id = row.id then { r with mention_count := r.mention_count + 1 }
      else r) = base := by
    conv_rhs => rw [← List.map_id base]
    apply List.map_congr_left
    intro a ha
    simp [hid a ha]
  rw [hb]
  simp

lemma save_entity_runs_found (name : Text) (ty : String) :
    ∀ (calls : List (Option String × String × Nat)) (cs : List ConvRow)
      (rs : List RelRow) (base : List EntityRow) (row : EntityRow),
      row.name = name → row.type = ty →
      (∀ r ∈ base, ¬(r.name = name ∧ r.type = ty)) →
      (∀ r ∈ base, r.id ≠ row.id) →
      save_entity_runs ⟨cs, base ++ [row], rs⟩ name ty calls =
        ⟨cs, base ++ [{row with mention_count := row.mention_count + calls.length}], rs⟩ := by
  intro calls
  induction calls with
  | nil =>
    intro cs rs base row _ _ _ _
    simp [save_entity_runs]
  | cons c rest ih =>
    intro cs rs base row hrn hrt hbase hid
    show save_entity_runs
        (save_entity ⟨cs, base ++ [row], rs⟩ name ty c.1 c.2.1 c.2.2).2
        name ty rest = _
    rw [save_entity_found cs rs base row name ty hrn hrt hbase hid c.1 c.2.1 c.2.2]
    dsimp only
    rw [ih cs rs base
      ⟨row.id, row.name, row.type, row.metadata_json, row.first_seen,
       row.mention_count + 1⟩ hrn hrt hbase hid]
    have harith : row.mention_count + 1 + rest.length =
        row.mention_count + (rest.length + 1) := by omega
    simp [harith]

lemma save_entity_preserves_invariant (db2 : DB) (n : Text) (t : String)
    (m : Option String) (i : String) (s : Nat)
    (hinv : entitiesInvariant db2) :
    entitiesInvariant ((save_entity db2 n t m i s).2) := by
  obtain ⟨hpw, hcnt⟩ := hinv
  rcases hfind : db2.entities.find? (fun r => decide (r.name = n ∧ r.type = t))
    with _ | existing
  · have h2 : ((save_entity db2 n t m i s).2).entities
        = db2.entities ++ [⟨i, n, t, m, s, 1⟩] := by
      unfold save_entity
      rw [hfind]
    unfold entitiesInvariant
    rw [h2]
    constructor
    · refine List.pairwise_append.2 ⟨hpw, by simp, ?_⟩
      intro a ha b hb
      simp only [List.mem_singleton] at hb
      subst hb
      have := List.find?_eq_none.1 hfind a ha
      simpa using this
    · intro r hr
      rcases List.mem_append.1 hr with h1 | h1
      · exact hcnt r h1
      · simp only [List.mem_singleton] at h1
        subst h1
        exact Nat.le_refl 1
  · have h2 : ((save_entity db2 n t m i s).2).entities
        = db2.entities.map (fun r =>
            if r.id = existing.id then { r with mention_count := r.mention_count + 1 }
            else r) := by
      unfold save_entity
      rw [hfind]
    unfold entitiesInvariant
    rw [h2]
    constructor
    · refine List.Pairwise.map _ ?_ hpw
      intro a b hab
      by_cases h1 : a.id = existing.id <;> by_cases h2 : b.id = existing.id <;>
        simpa [h1, h2] using hab
    · intro r hr
      obtain ⟨x, hx, rfl⟩ := List.mem_map.1 hr
      by_cases h1 : x.id = existing.id
      · simp only [h1, if_true]
        exact Nat.le_trans (hcnt x hx) (Nat.le_succ _)
      · simpa [h1] using hcnt x hx

/-- **C3** (confirmed).  Starting from a store with no `(name, type)` row and
no row with the fresh id, calling the entity upsert N = `calls.length + 1`
times with the same `(name, type)` — whatever the metadata of each call —
leaves the entities table extended by exactly one row for that key, holding
the FIRST call's metadata and `mention_count = N`; and one upsert step always
preserves the invariant that `(name, type)` identifies at most one row with
`mention_count ≥ 1`. -/
theorem C3_entity_upsert (db : DB) (name : Text) (ty : String)
    (m0 : Option String) (id0 : String) (ts0 : Nat)
    (calls : List (Option String × String × Nat))
    (hnomatch : ∀ r ∈ db.entities, ¬(r.name = name ∧ r.type = ty))
    (hfresh : ∀ r ∈ db.entities, r.id ≠ id0) :
    (save_entity_runs db name ty ((m0, id0, ts0) :: calls)).entities
        = db.entities ++ [⟨id0, name, ty, m0, ts0, calls.length + 1⟩] ∧
    ((save_entity_runs db name ty ((m0, id0, ts0) :: calls)).entities.filter
        (fun r => decide (r.name = name ∧ r.type = ty)))
        = [⟨id0, name, ty, m0, ts0, calls.length + 1⟩] ∧
    (∀ db2 n t m i s, entitiesInvariant db2 →
      entitiesInvariant ((save_entity db2 n t m i s).2)) := by
  obtain ⟨cs, ents, rs⟩ := db
  simp only at hnomatch hfresh
  have hnone : ents.find? (fun r => decide (r.name = name ∧ r.type = ty)) = none :=
    List.find?_eq_none.2 (fun x hx => by simpa using hnomatch x hx)
  have hstep : save_entity ⟨cs, ents, rs⟩ name ty m0 id0 ts0 =
      (id0, ⟨cs, ents ++ [⟨id0, name, ty, m0, ts0, 1⟩], rs⟩) := by
    unfold save_entity
    dsimp only
    rw [hnone]
  have hmain : (save_entity_runs ⟨cs, ents, rs⟩ name ty ((m0, id0, ts0) :: calls)).entities
      = ents ++ [⟨id0, name, ty, m0, ts0, calls.length + 1⟩] := by
    show (save_entity_runs
        (save_entity ⟨cs, ents, rs⟩ name ty m0 id0 ts0).2 name ty calls).entities = _
    rw [hstep]
    rw [save_entity_runs_found name ty calls cs rs ents ⟨id0, name, ty, m0, ts0, 1⟩
      rfl rfl hnomatch hfresh]
    simp [Nat.add_comm]
  refine ⟨hmain, ?_, fun db2 n t m i s h => save_entity_preserves_invariant db2 n t m i s h⟩
  rw [hmain, List.filter_append]
  have h1 : ents.filter (fun r => decide (r.name = name ∧ r.type = ty)) = [] :=
    List.filter_eq_nil_iff.2 (fun x hx => by simpa using hnomatch x hx)
  rw [h1]
  simp

/-- Witness for C3: three upserts of `("Ana", "person")` with differing
metadata, from the empty store. -/
theorem C3_witness :
    (save_entity_runs ⟨[], [], []⟩ (str "Ana") "person"
        [(some "x", "id0", 0), (none, "id1", 1), (some "y", "id2", 2)]).entities
      = [⟨"id0", str "Ana", "person", some "x", 0, 3⟩] := by
  have h := C3_entity_upsert ⟨[], [], []⟩ (str "Ana") "person" (some "x") "id0" 0
    [(none, "id1", 1), (some "y", "id2", 2)] (by simp) (by simp)
  simpa using h.1

/-! ### C9: conversation round-trip -/

instance : IsTotal ConvRow (fun a b => b.timestamp ≤ a.timestamp) :=
  ⟨fun a b => Nat.le_total b.timestamp a.timestamp⟩

instance : IsTrans ConvRow (fun a b => b.timestamp ≤ a.timestamp) :=
  ⟨fun _ _ _ hab hbc => Nat.le_trans hbc hab⟩

lemma sortDesc_cons_of_strict_max (rows : List ConvRow) (r : ConvRow)
    (h : ∀ x ∈ rows, x.timestamp < r.timestamp) :
    ∃ l', sortByTimestampDesc (rows ++ [r]) = r :: l' := by
  unfold sortByTimestampDesc
  have hs := List.sorted_insertionSort (fun a b : ConvRow => b.timestamp ≤ a.timestamp)
    (rows ++ [r])
  have hperm := List.perm_insertionSort (fun a b : ConvRow => b.timestamp ≤ a.timestamp)
    (rows ++ [r])
  have hmem : r ∈ List.insertionSort (fun a b : ConvRow => b.timestamp ≤ a.timestamp)
      (rows ++ [r]) := hperm.mem_iff.2 (by simp)
  rcases hsort : List.insertionSort (fun a b : ConvRow => b.timestamp ≤ a.timestamp)
      (rows ++ [r]) with _ | ⟨x, l⟩
  · rw [hsort] at hmem; cases hmem
  · refine ⟨l, ?_⟩
    rw [hsort] at hmem hs
    rcases List.mem_cons.1 hmem with heq | hmem'
    · rw [← heq]
    · have hxr : r.timestamp ≤ x.timestamp := List.rel_of_sorted_cons hs r hmem'
      have hxmem : x ∈ rows ++ [r] :=
        hperm.mem_iff.1 (by rw [hsort]; exact List.mem_cons_self x l)
      rcases List.mem_append.1 hxmem with hx1 | hx1
      · exact absurd hxr (Nat.not_le.2 (h x hx1))
      · rw [List.mem_singleton.1 hx1]

lemma history_head_of_max (convs : List ConvRow) (newrow : ConvRow)
    (h : ∀ x ∈ convs, x.timestamp < newrow.timestamp) :
    (((sortByTimestampDesc (convs ++ [newrow])).take 10).map rowToConv).head?
      = some (rowToConv newrow) := by
  obtain ⟨l', hl⟩ := sortDesc_cons_of_strict_max convs newrow h
  rw [hl]
  rfl

/-- **C9** (confirmed).  A conversation written with entity snapshot `E` into
a store whose existing conversations are strictly older is returned first by
`get_conversation_history(session_id)`, with an entity list equal to `E` —
in particular equal element-wise by `(name, type, start)`. -/
theorem C9_conversation_round_trip (db : DB) (cid sid : String) (ts : Nat)
    (msg resp : Text) (E : List Entity) (chroma : Option String)
    (hts : ∀ c ∈ db.conversations, c.timestamp < ts) :
    (get_conversation_history
        (save_conversation db cid sid ts msg resp E chroma) (some sid) 10).head?
      = some ⟨cid, sid, ts, msg, resp, E⟩ ∧
    ((get_conversation_history
        (save_conversation db cid sid ts msg resp E chroma) (some sid) 10).head?.map
        (fun c => c.entities.map (fun e => (e.name, e.type, e.start))))
      = some (E.map (fun e => (e.name, e.type, e.start))) := by
  have hnew : rowToConv ⟨cid, sid, ts, msg, resp,
      (if E.isEmpty then none else some E), chroma⟩ = ⟨cid, sid, ts, msg, resp, E⟩ := by
    cases hE : E with
    | nil => simp [rowToConv, hE]
    | cons e es => simp [rowToConv]
  have hmain : (get_conversation_history
      (save_conversation db cid sid ts msg resp E chroma) (some sid) 10).head?
      = some ⟨cid, sid, ts, msg, resp, E⟩ := by
    unfold get_conversation_history save_conversation
    simp only
    by_cases hsid : sid = ""
    · simp only [hsid, if_true]
      rw [history_head_of_max db.conversations _ (by simpa using hts)]
      rw [← hsid, hnew]
    · simp only [hsid, if_false]
      rw [List.filter_append]
      have hnr : List.filter (fun r => decide (r.session_id = sid))
          [(⟨cid, sid, ts, msg, resp, (if E.isEmpty then none else some E), chroma⟩ : ConvRow)]
          = [⟨cid, sid, ts, msg, resp, (if E.isEmpty then none else some E), chroma⟩] := by
        simp
      rw [hnr]
      rw [history_head_of_max _ _ (fun x hx => hts x (List.mem_of_mem_filter hx))]
      rw [hnew]
  exact ⟨hmain, by rw [hmain]; rfl⟩

/-- Witness for C9: one conversation written to the empty store. -/
theorem C9_witness :
    (get_conversation_history
        (save_conversation ⟨[], [], []⟩ "c1" "s1" 5 (str "hola") (str "ok")
          [⟨str "Ana", "person", 0, 3, 9, none⟩] none) (some "s1") 10).head?
      = some ⟨"c1", "s1", 5, str "hola", str "ok", [⟨str "Ana", "person", 0, 3, 9, none⟩]⟩ :=
  (C9_conversation_round_trip ⟨[], [], []⟩ "c1" "s1" 5 (str "hola") (str "ok")
    [⟨str "Ana", "person", 0, 3, 9, none⟩] none (by simp)).1

/-! ### C7: context window and keyword fallback -/

/-- **C7** (confirmed).  `get_relevant_context` never returns more than 10
conversations; the keyword fallback is used exactly when the entity pass
finds nothing; and the fallback returns precisely those of the 20 most
recent conversations whose message contains, case-insensitively, some word
of the query longer than 3 characters. -/
theorem C7_context_window_and_fallback (db : DB) (user_message : Text)
    (entities : List Entity) (session_id : Option String) :
    (get_relevant_context db user_message entities session_id).length ≤ 10 ∧
    (entityContext db entities ≠ [] →
      get_relevant_context db user_message entities session_id =
        (entityContext db entities).take 10) ∧
    (entityContext db entities = [] →
      get_relevant_context db user_message entities session_id =
        (search_by_keywords db user_message).take 10) ∧
    (∀ conv, conv ∈ search_by_keywords db user_message ↔
      conv ∈ get_conversation_history db none 20 ∧
        ∃ w ∈ splitWS user_message, 3 < w.length ∧
          containsSub (lowText conv.user_message) (lowText w) = true) := by
  refine ⟨List.length_take_le _ _, ?_, ?_, ?_⟩
  · intro h
    unfold get_relevant_context
    dsimp only
    rw [if_neg (fun hh => h (List.isEmpty_iff.1 hh))]
    rfl
  · intro h
    unfold get_relevant_context
    dsimp only
    rw [if_pos (List.isEmpty_iff.2 h)]
    rfl
  · intro conv
    unfold search_by_keywords
    rw [List.mem_filter]
    constructor
    · rintro ⟨hmem, hany⟩
      refine ⟨hmem, ?_⟩
      obtain ⟨kw, hkw, hc⟩ := List.any_eq_true.1 hany
      obtain ⟨w, hw, hif⟩ := List.mem_filterMap.1 hkw
      by_cases hlen : 3 < w.length
      · refine ⟨w, hw, hlen, ?_⟩
        rw [if_pos hlen] at hif
        obtain rfl := Option.some.inj hif
        exact hc
      · rw [if_neg hlen] at hif; cases hif
    · rintro ⟨hmem, w, hw, hlen, hc⟩
      refine ⟨hmem, List.any_eq_true.2 ⟨lowText w, ?_, hc⟩⟩
      exact List.mem_filterMap.2 ⟨w, hw, by rw [if_pos hlen]⟩

/-! ### C6: extractor output is sorted and key-deduplicated -/

lemma dedupKeep_seen (l : List Entity) :
    ∀ (seen : List (Text × String × Nat)) (e : Entity),
      e ∈ dedupKeep seen l → entityKey e ∉ seen := by
  induction l with
  | nil => intro seen e h; cases h
  | cons a rest ih =>
    intro seen e h
    by_cases ha : entityKey a ∈ seen
    · rw [show dedupKeep seen (a :: rest) = dedupKeep seen rest from by
        simp [dedupKeep, ha]] at h
      exact ih seen e h
    · rw [show dedupKeep seen (a :: rest) = a :: dedupKeep (entityKey a :: seen) rest from by
        simp [dedupKeep, ha]] at h
      rcases List.mem_cons.1 h with rfl | h'
      · exact ha
      · intro hmem
        exact ih (entityKey a :: seen) e h' (by simp [hmem])

lemma mem_dedupKeep (l : List Entity) :
    ∀ (seen : List (Text × String × Nat)) (e : Entity),
      e ∈ dedupKeep seen l ↔
        entityKey e ∉ seen ∧
          ∃ l1 l2, l = l1 ++ e :: l2 ∧ ∀ x ∈ l1, entityKey x ≠ entityKey e := by
  induction l with
  | nil =>
    intro seen e
    constructor
    · intro h; cases h
    · rintro ⟨-, l1, l2, hl, -⟩
      cases l1 <;> simp at hl
  | cons a rest ih =>
    intro seen e
    by_cases ha : entityKey a ∈ seen
    · rw [show dedupKeep seen (a :: rest) = dedupKeep seen rest from by
        simp [dedupKeep, ha]]
      rw [ih seen e]
      constructor
      · rintro ⟨hnot, l1, l2, hl, hcond⟩
        refine ⟨hnot, a :: l1, l2, by rw [hl]; rfl, ?_⟩
        intro x hx
        rcases List.mem_cons.1 hx with rfl | hx'
        · intro hh
          exact hnot (hh ▸ ha)
        · exact hcond x hx'
      · rintro ⟨hnot, l1, l2, hl, hcond⟩
        cases l1 with
        | nil =>
          simp only [List.nil_append, List.cons.injEq] at hl
          exact absurd (hl.1 ▸ ha) hnot
        | cons b l1' =>
          simp only [List.cons_append, List.cons.injEq] at hl
          exact ⟨hnot, l1', l2, hl.2, fun x hx => hcond x (by simp [hx])⟩
    · rw [show dedupKeep seen (a :: rest) = a :: dedupKeep (entityKey a :: seen) rest from by
        simp [dedupKeep, ha]]
      rw [List.mem_cons, ih (entityKey a :: seen) e]
      constructor
      · rintro (rfl | ⟨hnot, l1, l2, hl, hcond⟩)
        · exact ⟨ha, [], rest, rfl, by simp⟩
        · have hne : entityKey e ≠ entityKey a := fun hh => hnot (by simp [hh])
          refine ⟨fun hh => hnot (by simp [hh]), a :: l1, l2, by rw [hl]; rfl, ?_⟩
          intro x hx
          rcases List.mem_cons.1 hx with rfl | hx'
          · exact fun hh => hne hh.symm
          · exact hcond x hx'
      · rintro ⟨hnot, l1, l2, hl, hcond⟩
        cases l1 with
        | nil =>
          simp only [List.nil_append, List.cons.injEq] at hl
          exact Or.inl hl.1.symm
        | cons b l1' =>
          simp only [List.cons_append, List.cons.injEq] at hl
          refine Or.inr ⟨?_, l1', l2, hl.2, fun x hx => hcond x (by simp [hx])⟩
          have hba : entityKey b ≠ entityKey e := hcond b (by simp)
          intro hh
          rcases List.mem_cons.1 hh with h1 | h1
          · exact hba (hl.1 ▸ h1).symm
          · exact hnot h1

lemma dedupKeep_pairwise (l : List Entity) :
    ∀ (seen : List (Text × String × Nat)),
      (dedupKeep seen l).Pairwise (fun a b => entityKey a ≠ entityKey b) := by
  induction l with
  | nil => intro seen; exact List.Pairwise.nil
  | cons a rest ih =>
    intro seen
    by_cases ha : entityKey a ∈ seen
    · rw [show dedupKeep seen (a :: rest) = dedupKeep seen rest from by
        simp [dedupKeep, ha]]
      exact ih seen
    · rw [show dedupKeep seen (a :: rest) = a :: dedupKeep (entityKey a :: seen) rest from by
        simp [dedupKeep, ha]]
      refine List.Pairwise.cons ?_ (ih _)
      intro b hb hh
      exact dedupKeep_seen rest _ b hb (by simp [← hh])

instance : IsTotal Entity (fun a b => a.start ≤ b.start) :=
  ⟨fun a b => Nat.le_total a.start b.start⟩

instance : IsTrans Entity (fun a b => a.start ≤ b.start) :=
  ⟨fun _ _ _ => Nat.le_trans⟩

/-- **C6** (confirmed).  For every text, `extract_entities` returns a list
sorted ascending by start offset, in which no two entities share the key
`(name.lower(), type, start)`; and an entity is returned exactly when it is
the first candidate with its key in the candidate stream — later duplicates
are dropped, not merged. -/
theorem C6_extract_sorted_deduplicated (text : Text) :
    List.Sorted (fun a b => a.start ≤ b.start) (extract_entities text) ∧
    (extract_entities text).Pairwise (fun a b => entityKey a ≠ entityKey b) ∧
    ∀ e, e ∈ extract_entities text ↔
      ∃ l1 l2, allCandidates text = l1 ++ e :: l2 ∧
        ∀ x ∈ l1, entityKey x ≠ entityKey e := by
  have hperm := List.perm_insertionSort (fun a b : Entity => a.start ≤ b.start)
    (dedupKeep [] (allCandidates text))
  refine ⟨?_, ?_, ?_⟩
  · exact List.sorted_insertionSort _ _
  · exact (List.Perm.pairwise_iff (fun h hh => h hh.symm) hperm).2
      (dedupKeep_pairwise (allCandidates text) [])
  · intro e
    have hiff := mem_dedupKeep (allCandidates text) [] e
    constructor
    · intro h
      exact (hiff.1 (hperm.mem_iff.1 h)).2
    · intro hdec
      exact hperm.mem_iff.2 (hiff.2 ⟨by simp, hdec⟩)

/-! ### C10: entity names versus matched spans -/

/-- What one engine step guarantees: the position advances, and the capture
group is either inherited unchanged or spans positions inside the consumed
region. -/
def StepInv (st st' : MSt) : Prop :=
  st.pos ≤ st'.pos ∧
  ∀ a b, st'.g1 = some (a, b) →
    st.g1 = some (a, b) ∨ (st.pos ≤ a ∧ a ≤ b ∧ b ≤ st'.pos)

lemma stepInv_refl (st : MSt) : StepInv st st :=
  ⟨Nat.le_refl _, fun _ _ h => Or.inl h⟩

lemma stepInv_trans {s t u : MSt} (h1 : StepInv s t) (h2 : StepInv t u) :
    StepInv s u := by
  refine ⟨Nat.le_trans h1.1 h2.1, ?_⟩
  intro a b hg
  rcases h2.2 a b hg with hinh | hb
  · rcases h1.2 a b hinh with hinh' | hb'
    · exact Or.inl hinh'
    · exact Or.inr ⟨hb'.1, hb'.2.1, Nat.le_trans hb'.2.2 h2.1⟩
  · exact Or.inr ⟨Nat.le_trans h1.1 hb.1, hb.2.1, hb.2.2⟩

lemma reRun_stepInv :
    ∀ (fuel : Nat) (re : RE) (st st' : MSt), st' ∈ reRun fuel re st → StepInv st st' := by
  intro fuel
  induction fuel with
  | zero => intro re st st' h; simp [reRun] at h
  | succ fuel ih =>
    intro re st st' h
    cases re with
    | eps =>
      simp only [reRun, List.mem_singleton] at h
      subst h; exact stepInv_refl _
    | cls p =>
      simp only [reRun] at h
      rcases hrest : st.rest with _ | ⟨c, r⟩
      · rw [hrest] at h; cases h
      · rw [hrest] at h
        dsimp only at h
        by_cases hp : p c
        · rw [if_pos hp] at h
          simp only [List.mem_singleton] at h
          subst h
          exact ⟨Nat.le_succ _, fun _ _ hg => Or.inl hg⟩
        · rw [if_neg hp] at h; cases h
    | seq r1 r2 =>
      simp only [reRun, List.mem_flatMap] at h
      obtain ⟨st1, h1, h2⟩ := h
      exact stepInv_trans (ih r1 st st1 h1) (ih r2 st1 st' h2)
    | alt r1 r2 =>
      simp only [reRun, List.mem_append] at h
      rcases h with h | h
      · exact ih r1 st st' h
      · exact ih r2 st st' h
    | wordB =>
      simp only [reRun] at h
      by_cases hb : atBoundary st.prev st.rest
      · rw [if_pos hb] at h
        simp only [List.mem_singleton] at h
        subst h; exact stepInv_refl _
      · rw [if_neg hb] at h; cases h
    | grp r =>
      simp only [reRun, List.mem_map] at h
      obtain ⟨st1, h1, rfl⟩ := h
      have hstep := ih r st st1 h1
      refine ⟨hstep.1, ?_⟩
      intro a b hg
      have hg' : some (st.pos, st1.pos) = some (a, b) := hg
      have hab := Option.some.inj hg'
      have ha : st.pos = a := congrArg Prod.fst hab
      have hb : st1.pos = b := congrArg Prod.snd hab
      subst ha; subst hb
      exact Or.inr ⟨Nat.le_refl _, hstep.1, Nat.le_refl _⟩
    | rep r lo ohi =>
      cases lo with
      | zero =>
        cases ohi with
        | none =>
          simp only [reRun, List.mem_append, List.mem_flatMap, List.mem_singleton] at h
          rcases h with ⟨st1, h1, h2⟩ | rfl
          · exact stepInv_trans (ih r st st1 h1) (ih _ st1 st' h2)
          · exact stepInv_refl _
        | some n =>
          cases n with
          | zero =>
            simp only [reRun, List.mem_singleton] at h
            subst h; exact stepInv_refl _
          | succ n =>
            simp only [reRun, List.mem_append, List.mem_flatMap, List.mem_singleton] at h
            rcases h with ⟨st1, h1, h2⟩ | rfl
            · exact stepInv_trans (ih r st st1 h1) (ih _ st1 st' h2)
            · exact stepInv_refl _
      | succ l =>
        simp only [reRun, List.mem_flatMap] at h
        obtain ⟨st1, h1, h2⟩ := h
        exact stepInv_trans (ih r st st1 h1) (ih _ st1 st' h2)

lemma matchAt_bounds (re : RE) (text : Text) (pos : Nat) (st : MSt)
    (h : matchAt re text pos = some st) :
    pos ≤ st.pos ∧ ∀ a b, st.g1 = some (a, b) → pos ≤ a ∧ a ≤ b ∧ b ≤ st.pos := by
  unfold matchAt at h
  rcases hrun : reRun (text.length + 500) re
      ⟨pos, prevCharAt text pos, text.drop pos, none⟩ with _ | ⟨x, l⟩
  · rw [hrun] at h; cases h
  · rw [hrun] at h
    have hx : x = st := by simpa using h
    subst hx
    have hmem : x ∈ reRun (text.length + 500) re
        ⟨pos, prevCharAt text pos, text.drop pos, none⟩ := by
      rw [hrun]; exact List.mem_cons_self _ _
    have hstep := reRun_stepInv _ re _ x hmem
    refine ⟨hstep.1, ?_⟩
    intro a b hg
    rcases hstep.2 a b hg with hinh | hb
    · exact Option.noConfusion hinh
    · exact hb

lemma finditerAux_bounds (re : RE) (text : Text) :
    ∀ (fuel pos : Nat) (m : Nat × Nat × Option (Nat × Nat)),
      m ∈ finditerAux re text fuel pos →
      m.1 ≤ m.2.1 ∧ ∀ a b, m.2.2 = some (a, b) → m.1 ≤ a ∧ a ≤ b ∧ b ≤ m.2.1 := by
  intro fuel
  induction fuel with
  | zero => intro pos m h; cases h
  | succ fuel ih =>
    intro pos m h
    simp only [finditerAux] at h
    by_cases hle : pos ≤ text.length
    · rw [if_pos hle] at h
      rcases hm : matchAt re text pos with _ | st
      · rw [hm] at h
        exact ih _ m h
      · rw [hm] at h
        rcases List.mem_cons.1 h with rfl | h'
        · exact matchAt_bounds re text pos st hm
        · exact ih _ m h'
    · rw [if_neg hle] at h; cases h

lemma finditer_bounds (re : RE) (text : Text) (m : Nat × Nat × Option (Nat × Nat))
    (h : m ∈ finditer re text) :
    m.1 ≤ m.2.1 ∧ ∀ a b, m.2.2 = some (a, b) → m.1 ≤ a ∧ a ≤ b ∧ b ≤ m.2.1 :=
  finditerAux_bounds re text (text.length + 1) 0 m h

lemma slice_split (t : Text) {a c b : Nat} (h1 : a ≤ c) (h2 : c ≤ b) :
    slice t a b = slice t a c ++ slice t c b := by
  unfold slice
  have hsum : b - a = (c - a) + (b - c) := by omega
  rw [hsum, List.take_add, List.drop_drop]
  have hac : a + (c - a) = c := by omega
  rw [hac]

lemma special_span (text : Text) (pats : List RE) (ty : String) (conf : Nat)
    (md : Option String) (e : Entity)
    (h : e ∈ pats.flatMap (fun re => (finditer re text).filterMap (fun m =>
      m.2.2.map (fun g =>
        (⟨slice text g.1 g.2, ty, m.1, m.2.1, conf, md⟩ : Entity))))) :
    ∃ u v, slice text e.start e.stop = u ++ e.name ++ v := by
  simp only [List.mem_flatMap] at h
  obtain ⟨re, hre, h2⟩ := h
  obtain ⟨m, hm, heq⟩ := List.mem_filterMap.1 h2
  obtain ⟨g, hg, rfl⟩ := Option.map_eq_some'.1 heq
  have hb := (finditer_bounds re text m hm).2 g.1 g.2 (by rw [hg])
  have e1 : slice text m.1 m.2.1 = slice text m.1 g.1 ++ slice text g.1 m.2.1 :=
    slice_split text hb.1 (Nat.le_trans hb.2.1 hb.2.2)
  have e2 : slice text g.1 m.2.1 = slice text g.1 g.2 ++ slice text g.2 m.2.1 :=
    slice_split text hb.2.1 hb.2.2
  exact ⟨slice text m.1 g.1, slice text g.2 m.2.1,
    by rw [e1, e2, List.append_assoc]⟩

/-!
### The spec's worked scenario (used by C4 and C10)
-/

/-- The input of the spec's worked scenario. -/
def scenario_text : Text := str "Reunión con María sobre el proyecto FinOps el 15/03/2024"

/-- What `extract_entities` actually returns on the scenario text: 21
entities, because every pattern is compiled with `re.IGNORECASE`, so
`\b[A-Z][a-z]+\b`, `\b[A-Z][A-Z]+\b` and `\b[A-Z][a-z]+[A-Z][a-z]+\b` all
match every ASCII-letter word ("Reunión" and "María" contain the non-ASCII
ó/í and are caught only by the keyword pass). -/
def scenario_entities : List Entity :=
  [⟨str "Reunión", "event", 0, 7, 9, none⟩,
   ⟨str "con", "person", 8, 11, 8, none⟩,
   ⟨str "con", "project", 8, 11, 8, none⟩,
   ⟨str "María", "person", 12, 17, 9, none⟩,
   ⟨str "sobre el", "person", 18, 26, 8, none⟩,
   ⟨str "sobre", "person", 18, 23, 8, none⟩,
   ⟨str "sobre", "project", 18, 23, 8, none⟩,
   ⟨str "el", "person", 24, 26, 8, none⟩,
   ⟨str "el", "project", 24, 26, 8, none⟩,
   ⟨str "proyecto FinOps", "person", 27, 42, 8, none⟩,
   ⟨str "proyecto", "person", 27, 35, 8, none⟩,
   ⟨str "proyecto FinOps", "project", 27, 42, 8, none⟩,
   ⟨str "proyecto", "project", 27, 35, 8, none⟩,
   ⟨str "proyecto", "task", 27, 35, 9, none⟩,
   ⟨str "FinOps", "project", 27, 42, 8, some "development"⟩,
   ⟨str "FinOps", "person", 36, 42, 8, none⟩,
   ⟨str "FinOps", "project", 36, 42, 8, none⟩,
   ⟨str "el", "person", 43, 45, 8, none⟩,
   ⟨str "el", "project", 43, 45, 8, none⟩,
   ⟨str "15/03/2024", "date", 46, 56, 8, none⟩,
   ⟨str "2024", "date", 52, 56, 8, none⟩]

/-- What `generate_insights` actually returns on the scenario (with empty
retrieved context): the meeting follow-up, then the first four of the eight
project reminders — those for "con", "sobre", "el" and "proyecto FinOps";
the cap of 5 cuts the list before any reminder naming just "FinOps". -/
def scenario_insights : List Insight :=
  [⟨"follow_up", "medium",
    str "¿Te gustaría que programe un recordatorio para hacer seguimiento después de esta reunión?",
    str "Agregar recordatorio de seguimiento", none, none, none⟩,
   ⟨"follow_up", "medium",
    str "¿Hay actualizaciones sobre el proyecto con?",
    str "Actualizar estado del proyecto con", some (str "con"), none, none⟩,
   ⟨"follow_up", "medium",
    str "¿Hay actualizaciones sobre el proyecto sobre?",
    str "Actualizar estado del proyecto sobre", some (str "sobre"), none, none⟩,
   ⟨"follow_up", "medium",
    str "¿Hay actualizaciones sobre el proyecto el?",
    str "Actualizar estado del proyecto el", some (str "el"), none, none⟩,
   ⟨"follow_up", "medium",
    str "¿Hay actualizaciones sobre el proyecto proyecto FinOps?",
    str "Actualizar estado del proyecto proyecto FinOps",
    some (str "proyecto FinOps"), none, none⟩]

/-- **C4**, counterexample.  On the scenario input (with empty retrieved
context) the insights are NOT "exactly one meeting follow-up plus one
project reminder for FinOps": the entity-triggered reminders that survive
the cap (the insights carrying an `entity` key) are those for "con",
"sobre", "el" and "proyecto FinOps", not a single one for "FinOps". -/
theorem C4_counterexample :
    ¬ ((generate_insights scenario_text (extract_entities scenario_text) []).filterMap
        Insight.entity = [str "FinOps"]) := by decide

/-- **C4** as amended.  On the scenario input the 21 extracted entities do
include exactly one person "María", one date "15/03/2024" and two project
entities named "FinOps" (spans 27-42 and 36-42); the category is `"work"`;
but the five insights are the meeting follow-up followed by the first four
project reminders ("con", "sobre", "el", "proyecto FinOps") — the
FinOps-only reminder is cut off by the cap of 5. -/
theorem C4_amended :
    extract_entities scenario_text = scenario_entities ∧
    (scenario_entities.filter (fun e =>
      decide (e.name = str "María" ∧ e.type = "person"))).length = 1 ∧
    (scenario_entities.filter (fun e =>
      decide (e.name = str "15/03/2024" ∧ e.type = "date"))).length = 1 ∧
    (scenario_entities.filter (fun e =>
      decide (e.name = str "FinOps" ∧ e.type = "project"))).length = 2 ∧
    categorize_content scenario_text scenario_entities = "work" ∧
    generate_insights scenario_text scenario_entities [] = scenario_insights := by
  refine ⟨by decide, by decide, by decide, by decide, by decide, by decide⟩

/-- **C10** (confirmed).  Entities from the plain regex and keyword passes
are named by exactly the matched slice `text[start:end]`; entities from the
special-purpose extractors (birthday/deadline/project phrasings) are named
by the captured subgroup, which lies strictly inside the full matched span —
so there `name` is in general NOT `text[start:end]`, as the scenario's
"FinOps" project entity (span 27-42, slice "proyecto FinOps")
demonstrates. -/
theorem C10_name_vs_span :
    (∀ (text : Text) (e : Entity),
      e ∈ regexCandidates text ++ keywordCandidates text →
        e.name = slice text e.start e.stop) ∧
    (∀ (text : Text) (e : Entity),
      e ∈ extract_special_dates text ++ extract_projects text →
        ∃ u v, slice text e.start e.stop = u ++ e.name ++ v) ∧
    (∃ e, e ∈ extract_projects scenario_text ∧
      e.name ≠ slice scenario_text e.start e.stop) := by
  refine ⟨?_, ?_, ?_⟩
  · intro text e h
    rcases List.mem_append.1 h with h | h
    · simp only [regexCandidates, List.mem_flatMap] at h
      obtain ⟨p, hp, h2⟩ := h
      obtain ⟨re, hre, h3⟩ := h2
      obtain ⟨m, hm, rfl⟩ := List.mem_map.1 h3
      rfl
    · simp only [keywordCandidates, List.mem_flatMap] at h
      obtain ⟨p, hp, h2⟩ := h
      obtain ⟨kw, hkw, h3⟩ := h2
      by_cases hc : containsSub (lowText text) (str kw)
      · rw [if_pos hc] at h3
        obtain ⟨m, hm, rfl⟩ := List.mem_map.1 h3
        rfl
      · rw [if_neg hc] at h3
        cases h3
  · intro text e h
    rcases List.mem_append.1 h with h | h
    · unfold extract_special_dates at h
      rcases List.mem_append.1 h with h | h
      · exact special_span text birthday_patterns "person" 9 (some "birthday") e h
      · exact special_span text deadline_patterns "date" 8 (some "deadline") e h
    · exact special_span text project_patterns "project" 8 (some "development") e h
  · refine ⟨⟨str "FinOps", "project", 27, 42, 8, some "development"⟩, by decide, by decide⟩

end ADAM
